import Mathlib

/-!
Shallow embedding of the command queue engine of `src/lib/queue.js`
(class `CommandQueue`) and of the queue-facing part of the
`POST /api/complete` handler, together with proofs of the spec's claims
about them.

Modelling conventions:
* Timestamps (`Date.now()` values, `createdAt`, `expiresAt`, cooldown
  entries) are integers (`Int`): JavaScript represents millisecond epoch
  times exactly as numbers, and `Int` avoids the truncation a `Nat`
  subtraction would introduce in `now - lastCommandTime`.
* `this.commands` is a JavaScript `Map` keyed by command id.  A `Map`
  iterates in insertion order and holds at most one entry per key, so it
  is embedded as an insertion-ordered `List Command`; `Map.delete(id)`
  removes the unique entry with that key, embedded as filtering out the
  entries whose key equals `id`.
* `this.playerCooldowns` is a `Map` keyed by player name, embedded the
  same way as a `List (String × Int)`.  `Map.set` overwrites an existing
  key in place (keeping its position) and appends a fresh key.
* `crypto.randomUUID()` produces a fresh identifier; the supply of fresh
  identifiers is embedded as a `nextId : Nat` counter in the state, so
  freshness of ids is the counter invariant `c.id < nextId` for every
  stored command.
* Every operation of the class reads the clock with `Date.now()` at its
  start; the embedding passes that value as an explicit `now` argument.
* JavaScript result objects are embedded as structures whose optional
  fields are `Option`s; the human-readable `message` fields carry no
  state and are omitted.
-/

/-- Configuration of the queue engine (`this.config` in the constructor);
defaults are 50 commands, 300000 ms expiration, 60000 ms cooldown. -/
structure Config where
  maxQueueSize : Nat
  commandExpirationMs : Int
  duplicateCooldownMs : Int
deriving Repr, DecidableEq

/-- One pending command, as built by `addCommand` in `src/lib/queue.js`. -/
structure Command where
  id : Nat
  type : String
  player : String
  timestamp : Int
  attempts : Nat
  createdAt : Int
  expiresAt : Int
deriving Repr, DecidableEq

/-- The mutable state of the `CommandQueue` singleton: the insertion-ordered
command store, the per-player cooldown table, the configuration, and the
fresh-id counter standing in for `crypto.randomUUID()`. -/
structure QueueState where
  commands : List Command
  playerCooldowns : List (String × Int)
  config : Config
  nextId : Nat
deriving Repr, DecidableEq

/-- Lookup in the cooldown table: `this.playerCooldowns.get(player)`. -/
def cooldownGet (cds : List (String × Int)) (player : String) : Option Int :=
  (cds.find? (fun e => e.1 == player)).map (fun e => e.2)

/-- Update of the cooldown table: `this.playerCooldowns.set(player, t)`.
A JavaScript `Map.set` overwrites an existing key in place and appends a
fresh key at the end. -/
def cooldownSet (cds : List (String × Int)) (player : String) (t : Int) :
    List (String × Int) :=
  if cds.any (fun e => e.1 == player) then
    cds.map (fun e => if e.1 == player then (player, t) else e)
  else
    cds ++ [(player, t)]

/-- Deletion from the cooldown table: `this.playerCooldowns.delete(player)`.
A `Map` holds at most one entry per key, so deleting the key removes the
entries whose key equals `player`. -/
def cooldownDelete (cds : List (String × Int)) (player : String) :
    List (String × Int) :=
  cds.filter (fun e => e.1 != player)

/-- Embedding of `isDuplicateCommand(player, now)`.  The JavaScript guard
`if (!lastCommandTime) return false` is a falsy check: it fires both when
the map has no entry and when the stored timestamp is the number `0`. -/
def isDuplicateCommand (s : QueueState) (player : String) (now : Int) : Bool :=
  match cooldownGet s.playerCooldowns player with
  | none => false
  | some lastCommandTime =>
    if lastCommandTime == 0 then false
    else decide (now - lastCommandTime < s.config.duplicateCooldownMs)

/-- Result object of `addCommand` (`message` fields omitted). -/
structure AddResult where
  success : Bool
  error : Option String := none
  commandId : Option Nat := none
  queuePosition : Option Nat := none
deriving Repr, DecidableEq

/-- Embedding of `addCommand(type, player, timestamp)`; `now` is the
`Date.now()` read at its first line.  Note that `addCommand` performs no
expiration sweep: its checks run against the raw store. -/
def addCommand (s : QueueState) (type player : String) (timestamp now : Int) :
    AddResult × QueueState :=
  if isDuplicateCommand s player now then
    ({ success := false, error := some ("DUPLICATE_COMMAND") }, s)
  else if s.commands.length ≥ s.config.maxQueueSize then
    ({ success := false, error := some ("QUEUE_FULL") }, s)
  else
    let command : Command :=
      { id := s.nextId, type := type, player := player, timestamp := timestamp,
        attempts := 0, createdAt := now,
        expiresAt := now + s.config.commandExpirationMs }
    let commands := s.commands ++ [command]
    ({ success := true, commandId := some s.nextId,
       queuePosition := some commands.length },
     { s with commands := commands,
              playerCooldowns := cooldownSet s.playerCooldowns player now,
              nextId := s.nextId + 1 })

/-- Embedding of `cleanupExpiredCommands()`.  First pass: every command with
`now > expiresAt` is deleted and its player's cooldown entry deleted with it.
Second pass: a cooldown entry older than the cooldown window is deleted when
no remaining command belongs to that player. -/
def cleanupExpiredCommands (s : QueueState) (now : Int) : QueueState :=
  let expired := s.commands.filter (fun c => decide (now > c.expiresAt))
  let commands := s.commands.filter (fun c => !decide (now > c.expiresAt))
  let cds1 := s.playerCooldowns.filter
    (fun e => !(expired.any (fun c => c.player == e.1)))
  let cds2 := cds1.filter
    (fun e => !(decide (now - e.2 > s.config.duplicateCooldownMs) &&
                !(commands.any (fun c => c.player == e.1))))
  { s with commands := commands, playerCooldowns := cds2 }

/-- The read-only snapshot of a command returned by `pollCommand`. -/
structure PolledCommand where
  id : Nat
  type : String
  player : String
  timestamp : Int
  attempts : Nat
deriving Repr, DecidableEq

/-- Result object of `pollCommand`. -/
structure PollResult where
  hasCommand : Bool
  command : Option PolledCommand := none
deriving Repr, DecidableEq

/-- Embedding of `pollCommand(deviceId)` (the `deviceId` argument is unused
by the source).  It sweeps first, then returns a snapshot of the first
command in insertion order, if any. -/
def pollCommand (s : QueueState) (now : Int) : PollResult × QueueState :=
  let s1 := cleanupExpiredCommands s now
  match s1.commands.head? with
  | none => ({ hasCommand := false }, s1)
  | some c =>
    ({ hasCommand := true,
       command := some { id := c.id, type := c.type, player := c.player,
                         timestamp := c.timestamp, attempts := c.attempts } },
     s1)

/-- Result object of `completeCommand` (`message` field omitted). -/
structure CompleteResult where
  success : Bool
  error : Option String := none
  removed : Option Bool := none
  commandId : Option Nat := none
deriving Repr, DecidableEq

/-- Embedding of `completeCommand(commandId, success, error)`.  The `error`
argument is accepted and never read.  On a hit the command is deleted and,
when `success` is true, the player's cooldown entry is deleted too. -/
def completeCommand (s : QueueState) (commandId : Nat) (success : Bool)
    (error : Option String) : CompleteResult × QueueState :=
  match s.commands.find? (fun c => c.id == commandId) with
  | none => ({ success := false, error := some ("COMMAND_NOT_FOUND") }, s)
  | some command =>
    let commands := s.commands.filter (fun c => c.id != commandId)
    let cooldowns :=
      if success then cooldownDelete s.playerCooldowns command.player
      else s.playerCooldowns
    ({ success := true, removed := some true, commandId := some commandId },
     { s with commands := commands, playerCooldowns := cooldowns })

/-- Embedding of `getOldestCommandAge()`. -/
def getOldestCommandAge (s : QueueState) (now : Int) : Int :=
  match s.commands.head? with
  | none => 0
  | some c => now - c.createdAt

/-- Status snapshot returned by `getStatus`. -/
structure Status where
  queueSize : Nat
  maxQueueSize : Nat
  cooldownCount : Nat
  oldestCommandAge : Int
deriving Repr, DecidableEq

/-- Embedding of `getStatus()`: sweep, then report sizes and oldest age. -/
def getStatus (s : QueueState) (now : Int) : Status × QueueState :=
  let s1 := cleanupExpiredCommands s now
  ({ queueSize := s1.commands.length,
     maxQueueSize := s1.config.maxQueueSize,
     cooldownCount := s1.playerCooldowns.length,
     oldestCommandAge := getOldestCommandAge s1 now }, s1)

/-- HTTP-level response of the `POST /api/complete` handler
(`src/unnamed/part_000`), restricted to the fields the handler sets on the
paths that reach the queue call. -/
structure HttpResponse where
  status : Nat
  success : Bool
  removed : Option Bool := none
  error : Option String := none
  commandId : Option Nat := none
deriving Repr, DecidableEq

/-- Embedding of the queue-facing part of the `POST /api/complete` handler:
after input validation it calls `queue.completeCommand` and remaps a
`COMMAND_NOT_FOUND` failure to a 200 success with `removed: false`; any
other failure would map to a 500 `COMPLETION_ERROR`. -/
def completeHandler (s : QueueState) (commandId : Nat) (success : Bool)
    (err : Option String) : HttpResponse × QueueState :=
  let r := completeCommand s commandId success err
  if !r.1.success then
    if r.1.error == some ("COMMAND_NOT_FOUND") then
      ({ status := 200, success := true, removed := some false,
         commandId := some commandId }, r.2)
    else
      ({ status := 500, success := false,
         error := some ("COMPLETION_ERROR") }, r.2)
  else
    ({ status := 200, success := true, removed := r.1.removed,
       commandId := r.1.commandId }, r.2)

/-- Fuel-bounded sequence of poll-then-complete cycles; returns the list of
command ids delivered, in delivery order.  Each cycle polls, acknowledges
the delivered command with `success = true`, and continues on the resulting
state. -/
def drainIds (now : Int) : Nat → QueueState → List Nat
  | 0, _ => []
  | n + 1, s =>
    match (pollCommand s now).1.command with
    | none => []
    | some pc =>
      pc.id :: drainIds now n ((completeCommand (pollCommand s now).2 pc.id true none).2)

/-! ## Helper lemmas about the embedded operations -/

theorem filter_not_filter_eq_nil {α : Type} (l : List α) (p : α → Bool) :
    (l.filter fun a => !p a).filter p = [] := by
  rw [List.filter_eq_nil_iff]
  intro a ha
  have h2 := (List.mem_filter.mp ha).2
  simp only [Bool.not_eq_true'] at h2
  simp [h2]

theorem filter_idem {α : Type} (l : List α) (p : α → Bool) :
    (l.filter p).filter p = l.filter p :=
  List.filter_eq_self.mpr fun a ha => (List.mem_filter.mp ha).2

theorem cleanup_commands (s : QueueState) (now : Int) :
    (cleanupExpiredCommands s now).commands
      = s.commands.filter (fun c => !decide (now > c.expiresAt)) := rfl

theorem cleanup_config (s : QueueState) (now : Int) :
    (cleanupExpiredCommands s now).config = s.config := rfl

theorem mem_cleanup (s : QueueState) (now : Int) (c : Command) :
    c ∈ (cleanupExpiredCommands s now).commands ↔
      c ∈ s.commands ∧ now ≤ c.expiresAt := by
  rw [cleanup_commands, List.mem_filter]
  simp [Int.not_lt]

theorem cleanup_commands_of_unexpired (s : QueueState) (now : Int)
    (h : ∀ c ∈ s.commands, now ≤ c.expiresAt) :
    (cleanupExpiredCommands s now).commands = s.commands := by
  rw [cleanup_commands]
  exact List.filter_eq_self.mpr fun c hc => by
    simp only [Bool.not_eq_true', decide_eq_false_iff_not, Int.not_lt]
    exact h c hc

theorem cleanup_idem (s : QueueState) (now : Int) :
    cleanupExpiredCommands (cleanupExpiredCommands s now) now
      = cleanupExpiredCommands s now := by
  show QueueState.mk _ _ _ _ = QueueState.mk _ _ _ _
  simp only [cleanupExpiredCommands, QueueState.mk.injEq]
  refine ⟨filter_idem _ _, ?_, trivial, trivial⟩
  rw [filter_not_filter_eq_nil]
  simp only [List.any_nil, Bool.not_false, List.filter_true]
  rw [filter_idem, filter_idem]

theorem poll_state (s : QueueState) (now : Int) :
    (pollCommand s now).2 = cleanupExpiredCommands s now := by
  unfold pollCommand
  cases hh : (cleanupExpiredCommands s now).commands.head? <;> simp [hh]

theorem status_state (s : QueueState) (now : Int) :
    (getStatus s now).2 = cleanupExpiredCommands s now := rfl

theorem poll_of_cleanup (s : QueueState) (now : Int) :
    pollCommand (cleanupExpiredCommands s now) now = pollCommand s now := by
  unfold pollCommand
  rw [cleanup_idem]

/-! ## C1: completion of an unknown id is a success with removed = false -/

/-- C1: for every queue state and every id that does not identify a pending
command (including ids already removed by a prior completion or by
expiration), the complete operation (the `POST /api/complete` handler,
which remaps the engine's `COMMAND_NOT_FOUND` failure) returns an HTTP 200
success with `removed = false`, never an error result, and leaves the
state unchanged. -/
theorem complete_unknown_id_succeeds (s : QueueState) (commandId : Nat)
    (success : Bool) (err : Option String)
    (h : ∀ c ∈ s.commands, c.id ≠ commandId) :
    (completeHandler s commandId success err).1
      = { status := 200, success := true, removed := some false,
          commandId := some commandId } ∧
    (completeHandler s commandId success err).2 = s := by
  have hf : s.commands.find? (fun c => c.id == commandId) = none :=
    List.find?_eq_none.mpr fun x hx => by simp [h x hx]
  constructor <;> simp [completeHandler, completeCommand, hf]

theorem complete_unknown_id_succeeds_witness :
    (∀ c ∈ ([⟨0, "kick", "alice", 1, 0, 1, 300001⟩] : List Command), c.id ≠ 7) ∧
    ((completeHandler ⟨[⟨0, "kick", "alice", 1, 0, 1, 300001⟩], [("alice", 1)],
        ⟨50, 300000, 60000⟩, 1⟩ 7 true none).1
      = { status := 200, success := true, removed := some false,
          commandId := some 7 } ∧
     (completeHandler ⟨[⟨0, "kick", "alice", 1, 0, 1, 300001⟩], [("alice", 1)],
        ⟨50, 300000, 60000⟩, 1⟩ 7 true none).2
      = ⟨[⟨0, "kick", "alice", 1, 0, 1, 300001⟩], [("alice", 1)],
        ⟨50, 300000, 60000⟩, 1⟩) :=
  ⟨by decide, complete_unknown_id_succeeds _ 7 true none (by decide)⟩

/-! ## C6: failed submissions have no side effects -/

/-- C6: for every submit call that fails (duplicate or full), the engine
state is unchanged: the command store and the cooldown table after the call
equal those before the call. -/
theorem addCommand_failure_no_side_effects (s : QueueState) (ty p : String)
    (ts now : Int) (h : (addCommand s ty p ts now).1.success = false) :
    (addCommand s ty p ts now).2 = s := by
  cases hD : isDuplicateCommand s p now
  · by_cases hC : s.commands.length ≥ s.config.maxQueueSize
    · simp [addCommand, hD, hC]
    · exfalso
      simp [addCommand, hD, hC] at h
  · simp [addCommand, hD]

theorem addCommand_failure_no_side_effects_witness :
    ((addCommand ⟨[], [], ⟨0, 300000, 60000⟩, 0⟩ ("kick") ("bob") 5 10).1.success
      = false) ∧
    (addCommand ⟨[], [], ⟨0, 300000, 60000⟩, 0⟩ ("kick") ("bob") 5 10).2
      = ⟨[], [], ⟨0, 300000, 60000⟩, 0⟩ :=
  ⟨by decide,
   addCommand_failure_no_side_effects _ ("kick") ("bob") 5 10 (by decide)⟩

/-! ## C5: the duplicate check precedes the capacity check -/

/-- C5: the duplicate check is evaluated before the capacity check.  If the
player has a cooldown entry `t` with `now - t < cooldownWindow`, submit
fails with `DUPLICATE_COMMAND` even when the store already holds (or
exceeds) the configured maximum; `QUEUE_FULL` is returned exactly when the
player is not in cooldown and the store size is at least the configured
maximum.  The hypothesis `t ≠ 0` reflects that cooldown entries are
`Date.now()` values, which are nonzero in every execution (the source's
falsy guard `if (!lastCommandTime)` would treat a literal 0 as absent). -/
theorem addCommand_duplicate_precedes_capacity (s : QueueState)
    (ty p : String) (ts now : Int) :
    (∀ t, cooldownGet s.playerCooldowns p = some t → t ≠ 0 →
      now - t < s.config.duplicateCooldownMs →
      (addCommand s ty p ts now).1
        = { success := false, error := some ("DUPLICATE_COMMAND") }) ∧
    ((addCommand s ty p ts now).1
        = { success := false, error := some ("QUEUE_FULL") } ↔
      isDuplicateCommand s p now = false ∧
        s.config.maxQueueSize ≤ s.commands.length) := by
  constructor
  · intro t hget ht hwin
    have hD : isDuplicateCommand s p now = true := by
      unfold isDuplicateCommand
      rw [hget]
      simp only [beq_eq_false_iff_ne, ne_eq]
      rw [if_neg (by simpa using ht)]
      exact decide_eq_true hwin
    simp [addCommand, hD]
  · constructor
    · intro hres
      cases hD : isDuplicateCommand s p now
      · by_cases hC : s.commands.length ≥ s.config.maxQueueSize
        · exact ⟨rfl, hC⟩
        · exfalso
          simp [addCommand, hD, hC] at hres
      · exfalso
        rw [addCommand, if_pos hD] at hres
        simp at hres
    · rintro ⟨hD, hC⟩
      simp [addCommand, hD, Nat.not_lt.mpr hC, ge_iff_le, hC]

theorem addCommand_duplicate_precedes_capacity_witness :
    (cooldownGet [("alice", 5)] ("alice") = some 5 ∧ (5 : Int) ≠ 0 ∧
      (10 : Int) - 5 < 60000) ∧
    (addCommand ⟨[], [("alice", 5)], ⟨0, 300000, 60000⟩, 0⟩
        ("kick") ("alice") 7 10).1
      = { success := false, error := some ("DUPLICATE_COMMAND") } :=
  ⟨⟨by decide, by decide, by decide⟩,
   (addCommand_duplicate_precedes_capacity _ ("kick") ("alice") 7 10).1 5
     (by decide) (by decide) (by decide)⟩

/-! ## C2: the expiration boundary is strict, not inclusive -/

/-- C2 counterexample: the claim says a command is unobservable at any
instant with `now ≥ createdAt + expirationWindow`.  Here a command with
`createdAt = 1000` under the default 300000 ms window is polled at
`now = 301000 = createdAt + expirationWindow`, and both poll and status
still report it: the sweep deletes only on the strict `now > expiresAt`. -/
theorem expiration_at_boundary_still_observable :
    (pollCommand ⟨[⟨0, "kick", "alice", 1000, 0, 1000, 301000⟩],
        [("alice", 1000)], ⟨50, 300000, 60000⟩, 1⟩ 301000).1
      = { hasCommand := true, command := some ⟨0, "kick", "alice", 1000, 0⟩ } ∧
    (getStatus ⟨[⟨0, "kick", "alice", 1000, 0, 1000, 301000⟩],
        [("alice", 1000)], ⟨50, 300000, 60000⟩, 1⟩ 301000).1.queueSize = 1 := by
  constructor <;> decide

/-- C2 amended: a pending command with
`expiresAt = createdAt + expirationWindow` is present in the store that
poll and status act on (and hence observable to them) exactly when
`now ≤ createdAt + expirationWindow`; it becomes unobservable only once
`now` strictly exceeds `createdAt + expirationWindow`, not at the boundary
instant itself. -/
theorem expiration_boundary_strict (s : QueueState) (now : Int) (c : Command)
    (hc : c ∈ s.commands)
    (hw : c.expiresAt = c.createdAt + s.config.commandExpirationMs) :
    (c ∈ (pollCommand s now).2.commands ↔
      now ≤ c.createdAt + s.config.commandExpirationMs) ∧
    (c ∈ (getStatus s now).2.commands ↔
      now ≤ c.createdAt + s.config.commandExpirationMs) := by
  rw [poll_state, status_state, mem_cleanup, ← hw]
  exact ⟨by simp [hc], by simp [hc]⟩

theorem expiration_boundary_strict_witness :
    ((⟨0, "kick", "alice", 1000, 0, 1000, 301000⟩ : Command)
        ∈ [(⟨0, "kick", "alice", 1000, 0, 1000, 301000⟩ : Command)] ∧
     (301000 : Int) = 1000 + 300000) ∧
    ((⟨0, "kick", "alice", 1000, 0, 1000, 301000⟩ : Command)
        ∈ (pollCommand ⟨[⟨0, "kick", "alice", 1000, 0, 1000, 301000⟩],
            [("alice", 1000)], ⟨50, 300000, 60000⟩, 1⟩ 301000).2.commands ↔
      (301000 : Int) ≤ 1000 + 300000) ∧
    ((⟨0, "kick", "alice", 1000, 0, 1000, 301000⟩ : Command)
        ∈ (getStatus ⟨[⟨0, "kick", "alice", 1000, 0, 1000, 301000⟩],
            [("alice", 1000)], ⟨50, 300000, 60000⟩, 1⟩ 301000).2.commands ↔
      (301000 : Int) ≤ 1000 + 300000) :=
  ⟨⟨by decide, by decide⟩,
   expiration_boundary_strict _ 301000 _ (by decide) (by decide)⟩

/-! ## C3: poll and status observe only unexpired commands, but submit
does not sweep -/

/-- C3 counterexample: the claim says submit's capacity check never counts
a command whose `expiresAt` has passed.  Here the store holds exactly one
command, already expired (`expiresAt = 301000 < now = 301002`), the
configured maximum is 1, and a submission for a different player is
rejected with `QUEUE_FULL`: `addCommand` performs no sweep and its
capacity check counts the expired command.  (The state is reachable:
submit for alice at `now = 1000` with `maxQueueSize = 1`, then submit for
bob at `now = 301002`.) -/
theorem submit_counts_expired_commands :
    (addCommand ⟨[⟨0, "kick", "alice", 1000, 0, 1000, 301000⟩],
        [("alice", 1000)], ⟨1, 300000, 60000⟩, 1⟩ ("kick") ("bob")
        7 301002).1
      = { success := false, error := some ("QUEUE_FULL") } := by
  decide

/-- C3 amended: the operations that sweep (poll and status) observe only
commands with `now ≤ expiresAt` — every command in the store they act on
satisfies this bound (with equality possible at the boundary instant,
so `now < expiresAt` in the claim is also off by one).  Submit, however,
performs no sweep: whenever the player is not in cooldown and the raw
store size is at least the configured maximum, it returns `QUEUE_FULL`,
with no regard to how many of the stored commands are expired. -/
theorem lazy_expiration_per_operation (s : QueueState) (now : Int)
    (ty p : String) (ts : Int) :
    (∀ c ∈ (pollCommand s now).2.commands, now ≤ c.expiresAt) ∧
    (∀ c ∈ (getStatus s now).2.commands, now ≤ c.expiresAt) ∧
    (isDuplicateCommand s p now = false →
      s.config.maxQueueSize ≤ s.commands.length →
      (addCommand s ty p ts now).1
        = { success := false, error := some ("QUEUE_FULL") }) := by
  refine ⟨?_, ?_, ?_⟩
  · intro c hmem
    rw [poll_state, mem_cleanup] at hmem
    exact hmem.2
  · intro c hmem
    rw [status_state, mem_cleanup] at hmem
    exact hmem.2
  · intro hD hC
    simp [addCommand, hD, ge_iff_le, hC]

theorem lazy_expiration_per_operation_witness :
    (isDuplicateCommand ⟨[⟨0, "kick", "alice", 1000, 0, 1000, 301000⟩],
        [("alice", 1000)], ⟨1, 300000, 60000⟩, 1⟩ ("bob") 301002 = false ∧
     (1 : Nat) ≤ 1) ∧
    (addCommand ⟨[⟨0, "kick", "alice", 1000, 0, 1000, 301000⟩],
        [("alice", 1000)], ⟨1, 300000, 60000⟩, 1⟩ ("kick") ("bob")
        7 301002).1
      = { success := false, error := some ("QUEUE_FULL") } :=
  ⟨⟨by decide, by decide⟩,
   (lazy_expiration_per_operation _ 301002 ("kick") ("bob") 7).2.2
     (by decide) (by decide)⟩

/-! ## Lemmas about the cooldown table -/

theorem cooldownGet_delete_self (cds : List (String × Int)) (p : String) :
    cooldownGet (cooldownDelete cds p) p = none := by
  have hf : (cds.filter (fun e => e.1 != p)).find? (fun e => e.1 == p) = none :=
    List.find?_eq_none.mpr fun x hx => by
      have h2 := (List.mem_filter.mp hx).2
      simp only [bne_iff_ne, ne_eq] at h2
      simp [h2]
  simp [cooldownGet, cooldownDelete, hf]

theorem cooldownGet_delete_ne (cds : List (String × Int)) (p q : String)
    (h : q ≠ p) : cooldownGet (cooldownDelete cds p) q = cooldownGet cds q := by
  induction cds with
  | nil => rfl
  | cons e rest ih =>
    by_cases he : e.1 = p
    · have hq : (e.1 == q) = false := by
        simp [he]
        exact fun hh => h hh.symm
      have hd : (e.1 != p) = false := by simp [he]
      simp only [cooldownGet, cooldownDelete, List.filter_cons, hd,
        Bool.false_eq_true, if_false, List.find?_cons, hq] at ih ⊢
      exact ih
    · have hd : (e.1 != p) = true := by simp [he]
      by_cases hq : e.1 = q
      · have hq2 : (e.1 == q) = true := by simp [hq]
        simp [cooldownGet, cooldownDelete, List.filter_cons, hd,
          List.find?_cons, hq2]
      · have hq2 : (e.1 == q) = false := by simp [hq]
        simp only [cooldownGet, cooldownDelete, List.filter_cons, hd,
          if_true, List.find?_cons, hq2] at ih ⊢
        exact ih

theorem cooldownGet_map_set_ne (p q : String) (t : Int) (h : q ≠ p) :
    ∀ cds : List (String × Int),
      cooldownGet (cds.map (fun e => if e.1 == p then (p, t) else e)) q
        = cooldownGet cds q := by
  intro cds
  induction cds with
  | nil => rfl
  | cons e rest ih =>
    by_cases he : e.1 = p
    · have hq : (e.1 == q) = false := by
        simp [he]
        exact fun hh => h hh.symm
      have hpq : (p == q) = false := by
        simp
        exact fun hh => h hh.symm
      simp only [cooldownGet, List.map_cons, he, beq_self_eq_true, if_true,
        List.find?_cons, hpq, hq] at ih ⊢
      exact ih
    · have he2 : (e.1 == p) = false := by simp [he]
      by_cases hq : e.1 = q
      · have hq2 : (e.1 == q) = true := by simp [hq]
        simp [cooldownGet, List.map_cons, he, he2, List.find?_cons, hq2]
      · have hq2 : (e.1 == q) = false := by simp [hq]
        simp only [cooldownGet, List.map_cons, he2, Bool.false_eq_true,
          if_false, List.find?_cons, hq2] at ih ⊢
        exact ih

theorem cooldownGet_set_self (cds : List (String × Int)) (p : String) (t : Int) :
    cooldownGet (cooldownSet cds p t) p = some t := by
  unfold cooldownSet
  by_cases h : cds.any (fun e => e.1 == p) = true
  · rw [if_pos h]
    induction cds with
    | nil => simp at h
    | cons e rest ih =>
      by_cases he : e.1 = p
      · simp [cooldownGet, List.map_cons, he, List.find?_cons]
      · have he2 : (e.1 == p) = false := by simp [he]
        have hrest : rest.any (fun e => e.1 == p) = true := by
          simp only [List.any_cons, he2, Bool.false_or] at h
          exact h
        simp only [cooldownGet, List.map_cons, he2, Bool.false_eq_true,
          if_false, List.find?_cons] at ih ⊢
        exact ih hrest
  · rw [if_neg h]
    have h2 : cds.any (fun e => e.1 == p) = false := by
      cases hb : cds.any (fun e => e.1 == p)
      · rfl
      · exact absurd hb h
    have hn : cds.find? (fun e => e.1 == p) = none :=
      List.find?_eq_none.mpr fun x hx => List.any_eq_false.mp h2 x hx
    simp [cooldownGet, List.find?_append, hn]

theorem cooldownGet_set_ne (cds : List (String × Int)) (p q : String) (t : Int)
    (h : q ≠ p) : cooldownGet (cooldownSet cds p t) q = cooldownGet cds q := by
  unfold cooldownSet
  by_cases hany : cds.any (fun e => e.1 == p) = true
  · rw [if_pos hany]
    exact cooldownGet_map_set_ne p q t h cds
  · rw [if_neg hany]
    have hpq : (p == q) = false := by
      simp
      exact fun hh => h hh.symm
    have h1 : ([(p, t)] : List (String × Int)).find? (fun e => e.1 == q)
        = none := by
      simp [List.find?_cons, hpq]
    simp [cooldownGet, List.find?_append, h1]

/-! ## C7: completion of a pending command -/

/-- C7: for every complete call whose id identifies a pending command, the
command is removed from the store; the player's cooldown entry is removed
if and only if `success` is true (when `success` is false the cooldown
table is untouched); and the `error` argument has no effect on the
resulting state. -/
theorem complete_found_spec (s : QueueState) (cid : Nat) (succ : Bool)
    (err : Option String) (c : Command)
    (hfind : s.commands.find? (fun x => x.id == cid) = some c) :
    (completeCommand s cid succ err).1
      = { success := true, removed := some true, commandId := some cid } ∧
    (∀ x, x ∈ (completeCommand s cid succ err).2.commands ↔
        x ∈ s.commands ∧ x.id ≠ cid) ∧
    (succ = true →
      cooldownGet (completeCommand s cid succ err).2.playerCooldowns c.player
          = none ∧
      ∀ q, q ≠ c.player →
        cooldownGet (completeCommand s cid succ err).2.playerCooldowns q
          = cooldownGet s.playerCooldowns q) ∧
    (succ = false →
      (completeCommand s cid succ err).2.playerCooldowns
        = s.playerCooldowns) ∧
    (∀ err2, completeCommand s cid succ err2 = completeCommand s cid succ err) := by
  refine ⟨?_, ?_, ?_, ?_, ?_⟩
  · simp [completeCommand, hfind]
  · intro x
    simp [completeCommand, hfind, List.mem_filter]
  · intro hs
    subst hs
    constructor
    · simp [completeCommand, hfind, cooldownGet_delete_self]
    · intro q hq
      simp [completeCommand, hfind, cooldownGet_delete_ne _ _ _ hq]
  · intro hs
    subst hs
    simp [completeCommand, hfind]
  · intro err2
    simp [completeCommand, hfind]

theorem complete_found_spec_witness :
    ([(⟨0, "kick", "alice", 1, 0, 1, 300001⟩ : Command)].find?
        (fun x => x.id == 0) = some ⟨0, "kick", "alice", 1, 0, 1, 300001⟩) ∧
    ((completeCommand ⟨[⟨0, "kick", "alice", 1, 0, 1, 300001⟩],
        [("alice", 1)], ⟨50, 300000, 60000⟩, 1⟩ 0 true none).1
      = { success := true, removed := some true, commandId := some 0 } ∧
     (∀ x, x ∈ (completeCommand ⟨[⟨0, "kick", "alice", 1, 0, 1, 300001⟩],
        [("alice", 1)], ⟨50, 300000, 60000⟩, 1⟩ 0 true none).2.commands ↔
        x ∈ [(⟨0, "kick", "alice", 1, 0, 1, 300001⟩ : Command)] ∧ x.id ≠ 0) ∧
     (true = true →
       cooldownGet (completeCommand ⟨[⟨0, "kick", "alice", 1, 0, 1, 300001⟩],
          [("alice", 1)], ⟨50, 300000, 60000⟩, 1⟩ 0 true none).2.playerCooldowns
          ("alice") = none ∧
       ∀ q, q ≠ "alice" →
         cooldownGet (completeCommand ⟨[⟨0, "kick", "alice", 1, 0, 1, 300001⟩],
            [("alice", 1)], ⟨50, 300000, 60000⟩, 1⟩ 0 true none).2.playerCooldowns
            q = cooldownGet [("alice", 1)] q) ∧
     (true = false →
       (completeCommand ⟨[⟨0, "kick", "alice", 1, 0, 1, 300001⟩],
          [("alice", 1)], ⟨50, 300000, 60000⟩, 1⟩ 0 true none).2.playerCooldowns
         = [("alice", 1)]) ∧
     (∀ err2, completeCommand ⟨[⟨0, "kick", "alice", 1, 0, 1, 300001⟩],
          [("alice", 1)], ⟨50, 300000, 60000⟩, 1⟩ 0 true err2
        = completeCommand ⟨[⟨0, "kick", "alice", 1, 0, 1, 300001⟩],
          [("alice", 1)], ⟨50, 300000, 60000⟩, 1⟩ 0 true none)) :=
  ⟨by decide, complete_found_spec _ 0 true none
    (⟨0, "kick", "alice", 1, 0, 1, 300001⟩ : Command) (by decide)⟩

/-! ## C8: poll stability and absence of mutation -/

/-- C8: whenever poll returns a command, polling again with no intervening
completion (at the same instant) returns the identical result on the
identical state — the same command id; the returned snapshot is a command
of the original store, still present unmodified in the store after the
poll; and when every stored command has `attempts = 0` (as every command
built by submit does), the reported `attempts` is 0. -/
theorem poll_stability (s : QueueState) (now : Int) (pc : PolledCommand)
    (h : (pollCommand s now).1.command = some pc) :
    pollCommand (pollCommand s now).2 now = pollCommand s now ∧
    (∃ c, c ∈ s.commands ∧ c ∈ (pollCommand s now).2.commands ∧
      pc = { id := c.id, type := c.type, player := c.player,
             timestamp := c.timestamp, attempts := c.attempts }) ∧
    ((∀ c ∈ s.commands, c.attempts = 0) → pc.attempts = 0) := by
  have hrepeat : pollCommand (pollCommand s now).2 now = pollCommand s now := by
    rw [poll_state]
    exact poll_of_cleanup s now
  cases hh : (cleanupExpiredCommands s now).commands.head? with
  | none =>
    exfalso
    have : (pollCommand s now).1.command = none := by
      simp [pollCommand, hh]
    rw [this] at h
    cases h
  | some c =>
    have hsnap : (pollCommand s now).1.command
        = some (⟨c.id, c.type, c.player, c.timestamp, c.attempts⟩ :
            PolledCommand) := by
      simp [pollCommand, hh]
    have hpc : pc = (⟨c.id, c.type, c.player, c.timestamp, c.attempts⟩ :
        PolledCommand) := by
      rw [hsnap] at h
      exact (Option.some_inj.mp h).symm
    obtain ⟨ys, hys⟩ := List.head?_eq_some_iff.mp hh
    have hmemclean : c ∈ (cleanupExpiredCommands s now).commands := by
      rw [hys]
      exact List.mem_cons_self c ys
    have hmem : c ∈ s.commands := ((mem_cleanup s now c).mp hmemclean).1
    refine ⟨hrepeat, ⟨c, hmem, ?_, hpc⟩, ?_⟩
    · rw [poll_state]
      exact hmemclean
    · intro hall
      rw [hpc]
      exact hall c hmem

theorem poll_stability_witness :
    ((pollCommand ⟨[⟨0, "kick", "alice", 1000, 0, 1000, 301000⟩],
        [("alice", 1000)], ⟨50, 300000, 60000⟩, 1⟩ 2000).1.command
      = some ⟨0, "kick", "alice", 1000, 0⟩) ∧
    (pollCommand (pollCommand ⟨[⟨0, "kick", "alice", 1000, 0, 1000, 301000⟩],
        [("alice", 1000)], ⟨50, 300000, 60000⟩, 1⟩ 2000).2 2000
      = pollCommand ⟨[⟨0, "kick", "alice", 1000, 0, 1000, 301000⟩],
        [("alice", 1000)], ⟨50, 300000, 60000⟩, 1⟩ 2000 ∧
     (∃ c, c ∈ [(⟨0, "kick", "alice", 1000, 0, 1000, 301000⟩ : Command)] ∧
       c ∈ (pollCommand ⟨[⟨0, "kick", "alice", 1000, 0, 1000, 301000⟩],
          [("alice", 1000)], ⟨50, 300000, 60000⟩, 1⟩ 2000).2.commands ∧
       (⟨0, "kick", "alice", 1000, 0⟩ : PolledCommand)
         = { id := c.id, type := c.type, player := c.player,
             timestamp := c.timestamp, attempts := c.attempts }) ∧
     ((∀ c ∈ [(⟨0, "kick", "alice", 1000, 0, 1000, 301000⟩ : Command)],
         c.attempts = 0) →
       (⟨0, "kick", "alice", 1000, 0⟩ : PolledCommand).attempts = 0)) :=
  ⟨by decide, poll_stability _ 2000
    (⟨0, "kick", "alice", 1000, 0⟩ : PolledCommand) (by decide)⟩

/-! ## C9: the success path of submit -/

/-- C9: a submit call that passes both the duplicate and the capacity check
allocates a fresh id distinct from every id in the store (and, since the
fresh-id counter only grows, from every id ever returned), appends a
command with `createdAt = now` and `expiresAt = now + expirationWindow` at
the end of the order, sets the player's cooldown entry to `now`
(overwriting any prior entry and touching no other player's entry), and
returns success with that id and a 1-based queue position equal to the
store size immediately after insertion.  The hypothesis on `nextId` is the
fresh-id counter invariant standing in for `crypto.randomUUID()`
uniqueness. -/
theorem addCommand_success_spec (s : QueueState) (ty p : String)
    (ts now : Int)
    (hdup : isDuplicateCommand s p now = false)
    (hcap : s.commands.length < s.config.maxQueueSize)
    (hfresh : ∀ c ∈ s.commands, c.id < s.nextId) :
    (addCommand s ty p ts now).1
      = { success := true, commandId := some s.nextId,
          queuePosition := some (s.commands.length + 1) } ∧
    (∀ c ∈ s.commands, c.id ≠ s.nextId) ∧
    (addCommand s ty p ts now).2.commands
      = s.commands ++
        [{ id := s.nextId, type := ty, player := p, timestamp := ts,
           attempts := 0, createdAt := now,
           expiresAt := now + s.config.commandExpirationMs }] ∧
    (addCommand s ty p ts now).2.nextId = s.nextId + 1 ∧
    cooldownGet (addCommand s ty p ts now).2.playerCooldowns p = some now ∧
    (∀ q, q ≠ p → cooldownGet (addCommand s ty p ts now).2.playerCooldowns q
        = cooldownGet s.playerCooldowns q) ∧
    (addCommand s ty p ts now).1.queuePosition
      = some (addCommand s ty p ts now).2.commands.length := by
  have hC : ¬ s.commands.length ≥ s.config.maxQueueSize := Nat.not_le.mpr hcap
  refine ⟨?_, ?_, ?_, ?_, ?_, ?_, ?_⟩
  · simp [addCommand, hdup, hC]
  · intro c hc
    exact Nat.ne_of_lt (hfresh c hc)
  · simp [addCommand, hdup, hC]
  · simp [addCommand, hdup, hC]
  · simp [addCommand, hdup, hC, cooldownGet_set_self]
  · intro q hq
    simp [addCommand, hdup, hC, cooldownGet_set_ne _ _ _ _ hq]
  · simp [addCommand, hdup, hC]

theorem addCommand_success_spec_witness :
    (isDuplicateCommand ⟨[], [], ⟨50, 300000, 60000⟩, 0⟩ ("alice") 100
        = false ∧
     (0 : Nat) < 50 ∧
     (∀ c ∈ ([] : List Command), c.id < 0)) ∧
    ((addCommand ⟨[], [], ⟨50, 300000, 60000⟩, 0⟩ ("kick") ("alice")
        42 100).1
      = { success := true, commandId := some 0, queuePosition := some 1 } ∧
     (∀ c ∈ ([] : List Command), c.id ≠ 0) ∧
     (addCommand ⟨[], [], ⟨50, 300000, 60000⟩, 0⟩ ("kick") ("alice")
        42 100).2.commands
      = [] ++ [{ id := 0, type := "kick", player := "alice", timestamp := 42,
                 attempts := 0, createdAt := 100, expiresAt := 100 + 300000 }] ∧
     (addCommand ⟨[], [], ⟨50, 300000, 60000⟩, 0⟩ ("kick") ("alice")
        42 100).2.nextId = 0 + 1 ∧
     cooldownGet (addCommand ⟨[], [], ⟨50, 300000, 60000⟩, 0⟩ ("kick")
        ("alice") 42 100).2.playerCooldowns ("alice") = some 100 ∧
     (∀ q, q ≠ "alice" →
       cooldownGet (addCommand ⟨[], [], ⟨50, 300000, 60000⟩, 0⟩ ("kick")
          ("alice") 42 100).2.playerCooldowns q = cooldownGet [] q) ∧
     (addCommand ⟨[], [], ⟨50, 300000, 60000⟩, 0⟩ ("kick") ("alice")
        42 100).1.queuePosition
      = some (addCommand ⟨[], [], ⟨50, 300000, 60000⟩, 0⟩ ("kick") ("alice")
        42 100).2.commands.length) :=
  ⟨⟨by decide, by decide, by decide⟩,
   addCommand_success_spec _ ("kick") ("alice") 42 100 (by decide) (by decide)
     (by decide)⟩

/-! ## C4: FIFO delivery through poll-then-complete cycles -/

theorem drain_spec (now : Int) :
    ∀ (l : List Command) (s : QueueState), s.commands = l →
      (l.map Command.id).Nodup → (∀ c ∈ l, now ≤ c.expiresAt) →
      drainIds now l.length s = l.map Command.id := by
  intro l
  induction l with
  | nil =>
    intro s hs _ _
    rfl
  | cons c rest ih =>
    intro s hs hnodup hunexp
    have hclean : (cleanupExpiredCommands s now).commands = c :: rest := by
      rw [cleanup_commands_of_unexpired s now (by rw [hs]; exact hunexp), hs]
    have hpoll : pollCommand s now
        = ({ hasCommand := true,
             command := some ⟨c.id, c.type, c.player, c.timestamp,
               c.attempts⟩ },
           cleanupExpiredCommands s now) := by
      simp [pollCommand, hclean]
    have hfind : (cleanupExpiredCommands s now).commands.find?
        (fun x => x.id == c.id) = some c := by
      rw [hclean]
      exact List.find?_cons_of_pos _ (by simp)
    have hrest : ∀ x ∈ rest, x.id ≠ c.id := by
      intro x hx he
      have h1 : c.id ∉ rest.map Command.id := by
        rw [List.map_cons] at hnodup
        exact (List.nodup_cons.mp hnodup).1
      exact h1 (he ▸ List.mem_map_of_mem Command.id hx)
    have hcommands : ((completeCommand (cleanupExpiredCommands s now) c.id
        true none).2).commands = rest := by
      simp only [completeCommand, hfind]
      rw [hclean, List.filter_cons_of_neg (by simp)]
      exact List.filter_eq_self.mpr fun x hx => by
        simpa using hrest x hx
    have hlen : (c :: rest).length = rest.length + 1 := List.length_cons c rest
    rw [hlen]
    simp only [drainIds, hpoll, List.map_cons]
    exact congrArg (c.id :: ·)
      (ih _ hcommands
        (by rw [List.map_cons] at hnodup; exact (List.nodup_cons.mp hnodup).2)
        (fun x hx => hunexp x (List.mem_cons_of_mem c hx)))

/-- C4: for a store of pending commands with distinct ids, none expiring,
as produced by successful distinct-player submissions, running as many
sequential poll-then-complete cycles as there are commands returns the
command ids exactly in store (submission) order.  Moreover, when the store
is sorted by `createdAt` (as monotone submission times make it), poll
returns the command with the smallest `createdAt` of the swept store; and
a completion never re-orders the remaining commands (the resulting store
is a sublist of the original). -/
theorem fifo_poll_complete (s : QueueState) (now : Int)
    (hnodup : (s.commands.map Command.id).Nodup)
    (hunexp : ∀ c ∈ s.commands, now ≤ c.expiresAt) :
    drainIds now s.commands.length s = s.commands.map Command.id ∧
    (List.Pairwise (fun a b => a.createdAt ≤ b.createdAt) s.commands →
      ∀ c0, (pollCommand s now).2.commands.head? = some c0 →
        (pollCommand s now).1.command
          = some (⟨c0.id, c0.type, c0.player, c0.timestamp, c0.attempts⟩ :
              PolledCommand) ∧
        ∀ c ∈ (pollCommand s now).2.commands, c0.createdAt ≤ c.createdAt) ∧
    (∀ cid succ err,
      ((completeCommand s cid succ err).2.commands).Sublist s.commands) := by
  refine ⟨drain_spec now s.commands s rfl hnodup hunexp, ?_, ?_⟩
  · intro hsort c0 hh
    have hh2 : (cleanupExpiredCommands s now).commands.head? = some c0 := by
      rw [poll_state] at hh
      exact hh
    constructor
    · simp [pollCommand, hh2]
    · intro c hc
      rw [poll_state] at hc
      have hsort2 : List.Pairwise (fun a b => a.createdAt ≤ b.createdAt)
          (cleanupExpiredCommands s now).commands := by
        rw [cleanup_commands]
        exact List.Pairwise.sublist (List.filter_sublist _) hsort
      obtain ⟨ys, hys⟩ := List.head?_eq_some_iff.mp hh2
      rw [hys] at hc hsort2
      rcases List.mem_cons.mp hc with h1 | h2
      · rw [h1]
      · exact (List.pairwise_cons.mp hsort2).1 c h2
  · intro cid succ err
    cases hf : s.commands.find? (fun x => x.id == cid)
    · simp [completeCommand, hf]
    · simp only [completeCommand, hf]
      exact List.filter_sublist _

theorem fifo_poll_complete_witness :
    (([(⟨0, "kick", "alice", 1, 0, 1, 300001⟩ : Command),
       ⟨1, "ban", "bob", 2, 0, 2, 300002⟩].map Command.id).Nodup ∧
     (∀ c ∈ [(⟨0, "kick", "alice", 1, 0, 1, 300001⟩ : Command),
       ⟨1, "ban", "bob", 2, 0, 2, 300002⟩], (50 : Int) ≤ c.expiresAt)) ∧
    (drainIds 50 2 ⟨[⟨0, "kick", "alice", 1, 0, 1, 300001⟩,
        ⟨1, "ban", "bob", 2, 0, 2, 300002⟩],
        [("alice", 1), ("bob", 2)], ⟨50, 300000, 60000⟩, 2⟩
      = [(⟨0, "kick", "alice", 1, 0, 1, 300001⟩ : Command),
         ⟨1, "ban", "bob", 2, 0, 2, 300002⟩].map Command.id ∧
     (List.Pairwise (fun a b => a.createdAt ≤ b.createdAt)
        [(⟨0, "kick", "alice", 1, 0, 1, 300001⟩ : Command),
         ⟨1, "ban", "bob", 2, 0, 2, 300002⟩] →
       ∀ c0, (pollCommand ⟨[⟨0, "kick", "alice", 1, 0, 1, 300001⟩,
          ⟨1, "ban", "bob", 2, 0, 2, 300002⟩],
          [("alice", 1), ("bob", 2)], ⟨50, 300000, 60000⟩, 2⟩
          50).2.commands.head? = some c0 →
         (pollCommand ⟨[⟨0, "kick", "alice", 1, 0, 1, 300001⟩,
            ⟨1, "ban", "bob", 2, 0, 2, 300002⟩],
            [("alice", 1), ("bob", 2)], ⟨50, 300000, 60000⟩, 2⟩ 50).1.command
           = some (⟨c0.id, c0.type, c0.player, c0.timestamp, c0.attempts⟩ :
               PolledCommand) ∧
         ∀ c ∈ (pollCommand ⟨[⟨0, "kick", "alice", 1, 0, 1, 300001⟩,
            ⟨1, "ban", "bob", 2, 0, 2, 300002⟩],
            [("alice", 1), ("bob", 2)], ⟨50, 300000, 60000⟩, 2⟩
            50).2.commands, c0.createdAt ≤ c.createdAt) ∧
     (∀ cid succ err,
       ((completeCommand ⟨[⟨0, "kick", "alice", 1, 0, 1, 300001⟩,
          ⟨1, "ban", "bob", 2, 0, 2, 300002⟩],
          [("alice", 1), ("bob", 2)], ⟨50, 300000, 60000⟩, 2⟩
          cid succ err).2.commands).Sublist
         [(⟨0, "kick", "alice", 1, 0, 1, 300001⟩ : Command),
          ⟨1, "ban", "bob", 2, 0, 2, 300002⟩])) :=
  ⟨⟨by decide, by decide⟩,
   fifo_poll_complete ⟨[⟨0, "kick", "alice", 1, 0, 1, 300001⟩,
      ⟨1, "ban", "bob", 2, 0, 2, 300002⟩],
      [("alice", 1), ("bob", 2)], ⟨50, 300000, 60000⟩, 2⟩ 50
     (by decide) (by decide)⟩

/-! ## C10: completing an older command deletes the cooldown entry written
by a newer one -/

/-- C10: starting from an empty engine with the default configuration, a
player submits at `t1`, submits again at `t2 ≥ t1 + 60000` (the strict
`now - entry < cooldownWindow` duplicate check lets this through, so the
player now has two pending commands and a single cooldown entry holding
`t2`), and the first command (id 0) is completed with `success = true`.
`completeCommand` deletes the player's cooldown entry keyed only by name,
even though that entry was written by the later submission — so a third
submission for the same player at `t3` inside the later command's cooldown
window (`t3 - t2 < 60000`) is accepted immediately. -/
theorem complete_deletes_newer_cooldown (p : String) (t1 t2 t3 : Int)
    (h1 : 0 < t1) (h2 : t1 + 60000 ≤ t2) (h3 : t2 ≤ t3)
    (h4 : t3 - t2 < 60000) :
    (addCommand ⟨[], [], ⟨50, 300000, 60000⟩, 0⟩ ("kick") p t1 t1).1.success
      = true ∧
    (addCommand (addCommand ⟨[], [], ⟨50, 300000, 60000⟩, 0⟩ ("kick") p t1
        t1).2 ("ban") p t2 t2).1.success = true ∧
    (addCommand (addCommand ⟨[], [], ⟨50, 300000, 60000⟩, 0⟩ ("kick") p t1
        t1).2 ("ban") p t2 t2).2.commands.length = 2 ∧
    cooldownGet (addCommand (addCommand ⟨[], [], ⟨50, 300000, 60000⟩, 0⟩
        ("kick") p t1 t1).2 ("ban") p t2 t2).2.playerCooldowns p
      = some t2 ∧
    (completeCommand (addCommand (addCommand ⟨[], [], ⟨50, 300000, 60000⟩, 0⟩
        ("kick") p t1 t1).2 ("ban") p t2 t2).2 0 true
        none).2.playerCooldowns = [] ∧
    (addCommand (completeCommand (addCommand (addCommand
        ⟨[], [], ⟨50, 300000, 60000⟩, 0⟩ ("kick") p t1 t1).2 ("ban") p t2
        t2).2 0 true none).2 ("kick") p t3 t3).1.success = true := by
  have hs1 : addCommand ⟨[], [], ⟨50, 300000, 60000⟩, 0⟩ ("kick") p t1 t1
      = ({ success := true, commandId := some 0, queuePosition := some 1 },
         ⟨[⟨0, "kick", p, t1, 0, t1, t1 + 300000⟩], [(p, t1)],
          ⟨50, 300000, 60000⟩, 1⟩) := by
    have hd : isDuplicateCommand ⟨[], [], ⟨50, 300000, 60000⟩, 0⟩ p t1
        = false := rfl
    simp [addCommand, hd, cooldownSet]
  have hd2 : isDuplicateCommand ⟨[⟨0, "kick", p, t1, 0, t1, t1 + 300000⟩],
      [(p, t1)], ⟨50, 300000, 60000⟩, 1⟩ p t2 = false := by
    unfold isDuplicateCommand
    have hget : cooldownGet [(p, t1)] p = some t1 := by
      simp [cooldownGet, List.find?_cons]
    rw [hget]
    simp only [beq_eq_false_iff_ne, ne_eq]
    rw [if_neg (by simpa using (show t1 ≠ 0 by omega))]
    simp only [decide_eq_false_iff_not, not_lt]
    show (60000 : Int) ≤ t2 - t1
    omega
  have hs2 : addCommand ⟨[⟨0, "kick", p, t1, 0, t1, t1 + 300000⟩],
      [(p, t1)], ⟨50, 300000, 60000⟩, 1⟩ ("ban") p t2 t2
      = ({ success := true, commandId := some 1, queuePosition := some 2 },
         ⟨[⟨0, "kick", p, t1, 0, t1, t1 + 300000⟩,
           ⟨1, "ban", p, t2, 0, t2, t2 + 300000⟩], [(p, t2)],
          ⟨50, 300000, 60000⟩, 2⟩) := by
    simp [addCommand, hd2, cooldownSet]
  have hs3 : completeCommand ⟨[⟨0, "kick", p, t1, 0, t1, t1 + 300000⟩,
      ⟨1, "ban", p, t2, 0, t2, t2 + 300000⟩], [(p, t2)],
      ⟨50, 300000, 60000⟩, 2⟩ 0 true none
      = ({ success := true, removed := some true, commandId := some 0 },
         ⟨[⟨1, "ban", p, t2, 0, t2, t2 + 300000⟩], [],
          ⟨50, 300000, 60000⟩, 2⟩) := by
    have hfind : ([⟨0, "kick", p, t1, 0, t1, t1 + 300000⟩,
        (⟨1, "ban", p, t2, 0, t2, t2 + 300000⟩ : Command)]).find?
          (fun x => x.id == 0)
        = some ⟨0, "kick", p, t1, 0, t1, t1 + 300000⟩ :=
      List.find?_cons_of_pos _ (by simp)
    simp [completeCommand, hfind, cooldownDelete]
  have hs4 : (addCommand ⟨[⟨1, "ban", p, t2, 0, t2, t2 + 300000⟩], [],
      ⟨50, 300000, 60000⟩, 2⟩ ("kick") p t3 t3).1.success = true := by
    have hd4 : isDuplicateCommand ⟨[⟨1, "ban", p, t2, 0, t2, t2 + 300000⟩],
        [], ⟨50, 300000, 60000⟩, 2⟩ p t3 = false := rfl
    simp [addCommand, hd4]
  simp [hs1, hs2, hs3, hs4, cooldownGet]

theorem complete_deletes_newer_cooldown_witness :
    ((0 : Int) < 1 ∧ (1 : Int) + 60000 ≤ 60001 ∧ (60001 : Int) ≤ 60002 ∧
      (60002 : Int) - 60001 < 60000) ∧
    ((addCommand ⟨[], [], ⟨50, 300000, 60000⟩, 0⟩ ("kick") ("alice") 1
        1).1.success = true ∧
     (addCommand (addCommand ⟨[], [], ⟨50, 300000, 60000⟩, 0⟩ ("kick")
        ("alice") 1 1).2 ("ban") ("alice") 60001 60001).1.success = true ∧
     (addCommand (addCommand ⟨[], [], ⟨50, 300000, 60000⟩, 0⟩ ("kick")
        ("alice") 1 1).2 ("ban") ("alice") 60001
        60001).2.commands.length = 2 ∧
     cooldownGet (addCommand (addCommand ⟨[], [], ⟨50, 300000, 60000⟩, 0⟩
        ("kick") ("alice") 1 1).2 ("ban") ("alice") 60001
        60001).2.playerCooldowns ("alice") = some 60001 ∧
     (completeCommand (addCommand (addCommand
        ⟨[], [], ⟨50, 300000, 60000⟩, 0⟩ ("kick") ("alice") 1 1).2 ("ban")
        ("alice") 60001 60001).2 0 true none).2.playerCooldowns = [] ∧
     (addCommand (completeCommand (addCommand (addCommand
        ⟨[], [], ⟨50, 300000, 60000⟩, 0⟩ ("kick") ("alice") 1 1).2 ("ban")
        ("alice") 60001 60001).2 0 true none).2 ("kick") ("alice") 60002
        60002).1.success = true) :=
  ⟨⟨by decide, by decide, by decide, by decide⟩,
   complete_deletes_newer_cooldown ("alice") 1 60001 60002 (by decide)
     (by decide) (by decide) (by decide)⟩
